import Mathlib

/-!
Verification of the paginated list synchronization engine of the
gemini_wildcard_generator repository.

Server side (Express + SQLite, `GET /api/wildcards` and friends):
the `wildcards` table is embedded as a `List Row`; the SQLite index walk
`ORDER BY rowid DESC` is embedded as an explicit `insertionSort` on the
row list, so the query functions are meaningful for an arbitrary list,
and the database invariant (rowids strictly decreasing in index order,
ids unique — `id TEXT PRIMARY KEY`) appears as hypotheses of the theorems.

Client side (`useWildcardList.ts`): the hook's state (`items`,
`dbFetched`, `serverTotal`, `isLoadingMore`, `isInitialLoad`,
`nextCursorRef`, `isFetchingRef`, `activeQueryRef`) is embedded as a
`CacheState` record, and each operation of the hook (the query-change
effect, `fetchPage`'s guard, the continuation that applies a fetch
response, `loadMore`, `prepend`, `remove`) as a state transformer.
-/

/-- Row of the `wildcards` table.  `rowid` is SQLite's implicit rowid
(the spec's `insertionOrder`), `list` is the `'generated' | 'saved'`
column. -/
structure Row where
  rowid : Nat
  id : String
  text : String
  list : String
  preview_url : Option String
  created_at : Nat
deriving DecidableEq

/-- Shape of the `GET /api/wildcards` JSON response:
`{ items, total, nextCursor }`. -/
structure Page where
  items : List Row
  total : Nat
  nextCursor : Option Nat
deriving DecidableEq

/-- SQLite `LIKE` matching (default `PRAGMA case_sensitive_like = OFF`):
`%` matches any sequence, `_` matches any single character, other
characters compare ASCII-case-insensitively (`Char.toLower` folds exactly
the ASCII range, as SQLite's default LIKE does).  The function is driven
by a fuel counter: every recursive call strictly decreases
`p.length + s.length`, so fuel `p.length + s.length + 1` always suffices
and `likeMatch` below is total over it. -/
def likeMatchAux : Nat → List Char → List Char → Bool
  | 0, _, _ => false
  | _ + 1, [], [] => true
  | _ + 1, [], _ :: _ => false
  | fuel + 1, '%' :: p, [] => likeMatchAux fuel p []
  | fuel + 1, '%' :: p, c :: s =>
      likeMatchAux fuel p (c :: s) || likeMatchAux fuel ('%' :: p) s
  | _ + 1, '_' :: _, [] => false
  | fuel + 1, '_' :: p, _ :: s => likeMatchAux fuel p s
  | _ + 1, _ :: _, [] => false
  | fuel + 1, a :: p, c :: s =>
      (a.toLower == c.toLower) && likeMatchAux fuel p s

/-- SQLite `text LIKE pattern` with the default case-insensitive collation. -/
def likeMatch (p s : List Char) : Bool :=
  likeMatchAux (p.length + s.length + 1) p s

/-- The LIKE pattern built by the handler:
`const q = req.query.q ? `%${req.query.q}%` : '%'` — the empty (falsy)
query string produces the bare `'%'` pattern. -/
def likePat (q : String) : List Char :=
  if q = "" then ['%'] else '%' :: (q.toList ++ ['%'])

/-- The cursor-independent part of the WHERE clause:
`list = ? AND text LIKE ?`. -/
def matchPred (lst q : String) (r : Row) : Bool :=
  (r.list == lst) && likeMatch (likePat q) r.text.toList

/-- The cursor bound `rowid < ?`; an absent cursor imposes no bound
(the handler issues the query without the `rowid < ?` conjunct). -/
def belowCursor : Option Nat → Nat → Bool
  | none, _ => true
  | some c, rid => decide (rid < c)

/-- Effective limit computed by the handler:
`Math.min(Number(req.query.limit) || 50, MAX_LIMIT)` with
`MAX_LIMIT = 200`.  `none` stands for a missing or non-numeric
parameter (JS `Number` gives `NaN`, which is falsy); a present numeric
parameter is `some n`, and `n = 0` is falsy as well, so both fall back
to 50.  The result is an `Int`: a negative requested limit survives
`Math.min` and reaches SQLite's `LIMIT`, where a negative limit means
"no limit". -/
def effLimit : Option Int → Int
  | none => 50
  | some n => if n = 0 then 50 else min n 200

/-- Index order used by `ORDER BY rowid DESC` (non-strict, for sorting). -/
def rowLe (a b : Row) : Prop := b.rowid ≤ a.rowid

instance : DecidableRel rowLe := fun a b => inferInstanceAs (Decidable (b.rowid ≤ a.rowid))

/-- The database invariant relation: rows appear in strictly decreasing
rowid order (SQLite rowids are unique, and the embedded store lists rows
in index order). -/
def rowGt (a b : Row) : Prop := b.rowid < a.rowid

/-- Rows returned by
`SELECT rowid, * FROM wildcards WHERE list = ? AND text LIKE ? [AND rowid < ?]
 ORDER BY rowid DESC LIMIT ?`:
filter, sort by rowid descending, and apply the limit — except that
SQLite treats a negative `LIMIT` as unbounded. -/
def queryRows (store : List Row) (lst q : String) (cursor : Option Nat)
    (lp : Option Int) : List Row :=
  if effLimit lp < 0 then
    (store.filter (fun r => matchPred lst q r && belowCursor cursor r.rowid)).insertionSort rowLe
  else
    ((store.filter (fun r => matchPred lst q r && belowCursor cursor r.rowid)).insertionSort rowLe).take (effLimit lp).toNat

/-- The full `GET /api/wildcards` handler result: the page rows, the
cursor-independent `COUNT(*)` with the same `list`/`LIKE` filter, and
`nextCursor = rows.length > 0 ? rows[rows.length - 1].rowid : null`. -/
def queryWildcards (store : List Row) (lst q : String) (cursor : Option Nat)
    (lp : Option Int) : Page :=
  { items := queryRows store lst q cursor lp
    total := (store.filter (matchPred lst q)).length
    nextCursor := (queryRows store lst q cursor lp).getLast?.map Row.rowid }

/-- `DELETE /api/wildcards/:id`: `DELETE FROM wildcards WHERE id = ?`. -/
def deleteWildcard (store : List Row) (id : String) : List Row :=
  store.filter (fun r => r.id != id)

/-- Client-side item shape (`WildcardItem` in `src/types`), as produced by
the server's `rowToItem` (the rowid is not sent to the client). -/
structure WildcardItem where
  id : String
  text : String
  createdAt : Nat
  previewUrl : Option String
deriving DecidableEq

/-- The server's `rowToItem` projection. -/
def rowToItem (r : Row) : WildcardItem :=
  { id := r.id, text := r.text, createdAt := r.created_at, previewUrl := r.preview_url }

/-- A page request issued by `fetchPage(q, cursor, replace)`: the closure
variables of the awaited call, `q` being the epoch tag. -/
structure Request where
  q : String
  cursor : Option Nat
  replace : Bool
deriving DecidableEq

/-- State of `useWildcardList`: the five `useState` cells plus the three
refs.  `pending` models the single outstanding `dbApi.fetchList` promise
(the single-flight guard allows at most one). -/
structure CacheState where
  items : List WildcardItem
  dbFetched : Nat
  serverTotal : Nat
  isLoadingMore : Bool
  isInitialLoad : Bool
  nextCursor : Option Nat
  isFetching : Bool
  activeQuery : String
  pending : Option Request
deriving DecidableEq

/-- A raw, already-JSON-parsed response body as `fetchList` hands it to
`fetchPage` (no validation happens anywhere on the way).  The
`nextCursor` field is `none` when the field is absent from the JSON
(JS `undefined`), `some none` when it is `null`, `some (some c)` when it
is a number. -/
structure RawResponse where
  items : List WildcardItem
  total : Nat
  nextCursor : Option (Option Nat)
deriving DecidableEq

/-- Reading `result.nextCursor` into `nextCursorRef.current`: an absent
field reads as `undefined`, which every later use (the
`opts.cursor !== null && opts.cursor !== undefined` test in
`dbApi.fetchList`) treats exactly like `null`, so both collapse to
`none`. -/
def decodeCursor : Option (Option Nat) → Option Nat
  | none => none
  | some c => c

/-- Outcome of an awaited `dbApi.fetchList` call: either a parsed JSON
body, or a thrown error (network failure / non-JSON body). -/
inductive FetchOutcome where
  | ok (resp : RawResponse)
  | err
deriving DecidableEq

/-- `fetchPage`'s entry: the single-flight guard
(`if (isFetchingRef.current) return`) followed by
`isFetchingRef.current = true; setIsLoadingMore(true)` and the issue of
the tagged request. -/
def startFetch (s : CacheState) (q : String) (cursor : Option Nat)
    (replace : Bool) : CacheState :=
  if s.isFetching then s
  else { s with isFetching := true, isLoadingMore := true,
                pending := some { q := q, cursor := cursor, replace := replace } }

/-- The query-change effect of `useWildcardList`: set the epoch ref,
clear the cursor ref, reset all state cells, and call
`fetchPage(searchQuery, null, true)`. -/
def setQueryOp (s : CacheState) (q : String) : CacheState :=
  startFetch
    { s with activeQuery := q, nextCursor := none, isInitialLoad := true,
             items := [], dbFetched := 0, serverTotal := 0 }
    q none true

/-- The continuation of `fetchPage` after the awaited call returns:
the epoch check (`if (activeQueryRef.current !== q) return`), the
response application (replace vs. append), the `catch` clearing
`isInitialLoad`, and the `finally` clearing the guard and the spinner.
The completed promise is consumed (`pending := none`). -/
def completeFetch (s : CacheState) (q : String) (replace : Bool)
    (out : FetchOutcome) : CacheState :=
  let s' :=
    match out with
    | .err => { s with isInitialLoad := false }
    | .ok resp =>
      if s.activeQuery = q then
        if replace then
          { s with nextCursor := decodeCursor resp.nextCursor,
                   serverTotal := resp.total,
                   items := resp.items,
                   dbFetched := resp.items.length,
                   isInitialLoad := false }
        else
          { s with nextCursor := decodeCursor resp.nextCursor,
                   serverTotal := resp.total,
                   items := s.items ++ resp.items,
                   dbFetched := s.dbFetched + resp.items.length }
      else s
  { s' with isFetching := false, isLoadingMore := false, pending := none }

/-- `loadMore`: no-op unless no fetch is in flight and
`hasMore = dbFetched < serverTotal`; otherwise fetch the next page with
the current epoch tag and cursor ref. -/
def loadMoreOp (s : CacheState) : CacheState :=
  if s.isFetching = false ∧ s.dbFetched < s.serverTotal then
    startFetch s s.activeQuery s.nextCursor false
  else s

/-- `prepend(newItems)`: head-insert and bump both counters by the count
added; nothing else is touched. -/
def prependOp (s : CacheState) (new : List WildcardItem) : CacheState :=
  { s with items := new ++ s.items,
           serverTotal := s.serverTotal + new.length,
           dbFetched := s.dbFetched + new.length }

/-- `remove(id)`: filter out the id and decrement both counters with a
floor at zero (`Math.max(0, prev - 1)`, which on `Nat` is truncated
subtraction). -/
def removeOp (s : CacheState) (id : String) : CacheState :=
  { s with items := s.items.filter (fun w => w.id != id),
           serverTotal := s.serverTotal - 1,
           dbFetched := s.dbFetched - 1 }

/-- The cache state right after the query-change reset (and the state a
freshly mounted hook starts from). -/
def resetState : CacheState :=
  { items := [], dbFetched := 0, serverTotal := 0, isLoadingMore := false,
    isInitialLoad := true, nextCursor := none, isFetching := false,
    activeQuery := "", pending := none }

/-- One interleaving step for the optimistic-counter analysis: a
`prepend`, a `remove`, or the application of a completed page fetch. -/
inductive CacheOp where
  | prependItems (new : List WildcardItem)
  | removeId (id : String)
  | fetchDone (q : String) (replace : Bool) (out : FetchOutcome)

/-- Apply one interleaving step. -/
def applyOp (s : CacheState) : CacheOp → CacheState
  | .prependItems new => prependOp s new
  | .removeId id => removeOp s id
  | .fetchDone q replace out => completeFetch s q replace out

/-- Run an interleaving of cache operations. -/
def runOps (s : CacheState) : List CacheOp → CacheState
  | [] => s
  | op :: rest => runOps (applyOp s op) rest

/-- Whether a single step is a `remove` targeting an id occurring exactly
once in the current items (non-`remove` steps are always fine). -/
def removeOk (s : CacheState) : CacheOp → Bool
  | .removeId id => s.items.countP (fun w => w.id == id) == 1
  | .prependItems _ => true
  | .fetchDone _ _ _ => true

/-- Checks, step by step, that every `remove` in the interleaving targets
an id occurring exactly once in the items present at that moment. -/
def removesValid (s : CacheState) : List CacheOp → Bool
  | [] => true
  | op :: rest => removeOk s op && removesValid (applyOp s op) rest

/-- The page sequence produced by repeated `loadMore()` calls against an
unchanged store: page 0 is the first-page fetch (no cursor), page `n+1`
uses the `nextCursor` reported by page `n`; once a page reports no
cursor, no further rows are fetched. -/
def pageAt (store : List Row) (lst q : String) (lp : Option Int) : Nat → Page
  | 0 => queryWildcards store lst q none lp
  | n + 1 =>
    match (pageAt store lst q lp n).nextCursor with
    | none => { items := [], total := (store.filter (matchPred lst q)).length,
                nextCursor := none }
    | some c => queryWildcards store lst q (some c) lp

/-- Per-record preview state on the server: the record's
`wildcards.preview_url` column (the default pointer) and its
`wildcard_previews` rows in `created_at`-ascending order (`Date.now()`
is non-decreasing, and new previews are appended). -/
structure PreviewState where
  preview_url : Option String
  previews : List String
deriving DecidableEq

/-- `POST /api/wildcards/:id/previews`: reject an empty url (400),
otherwise insert the preview row and
`UPDATE wildcards SET preview_url = COALESCE(preview_url, ?)` — the
default pointer is set only if it was null. -/
def addPreview (s : PreviewState) (url : String) : PreviewState :=
  if url = "" then s
  else { previews := s.previews ++ [url],
         preview_url := some (s.preview_url.getD url) }

/-- `DELETE /api/wildcards/:id/previews`: reject an empty url (400),
otherwise delete every preview row with that url and repoint
`preview_url` at the oldest remaining preview
(`ORDER BY created_at ASC LIMIT 1`), or `null` if none remain. -/
def removePreview (s : PreviewState) (url : String) : PreviewState :=
  if url = "" then s
  else
    { previews := s.previews.filter (fun u => u != url),
      preview_url := (s.previews.filter (fun u => u != url)).head? }

/-- The §3 data-model invariant: the default preview pointer, when set,
references a link currently present in the record's preview set. -/
def previewInv (s : PreviewState) : Prop :=
  ∀ u, s.preview_url = some u → u ∈ s.previews

/-- Spec-side notion for the pagination contract (modelled from the
spec's words, for comparison with the code's `likeMatch`): `needle`
occurs in `hay` as a contiguous substring. -/
def strStartsWith : List Char → List Char → Bool
  | [], _ => true
  | _ :: _, [] => false
  | a :: p, b :: s => (a == b) && strStartsWith p s

/-- Spec-side substring containment (contiguous). -/
def strContains (needle : List Char) : List Char → Bool
  | [] => needle == []
  | b :: s => strStartsWith needle (b :: s) || strContains needle s

/-- Spec-side case-insensitive substring test: `q` occurs in `t` when
both are lower-cased.  This is the spec's reading of "text matches
`query` as a case-insensitive substring". -/
def specContainsCI (q t : String) : Bool :=
  strContains (q.toList.map Char.toLower) (t.toList.map Char.toLower)

instance : DecidableRel rowGt := fun a b => inferInstanceAs (Decidable (b.rowid < a.rowid))

/-- A server page converted to the fetch outcome the client continuation
sees: `rowToItem` row conversion, and the always-present `nextCursor`
field (a JSON number or `null`). -/
def pageOutcome (p : Page) : FetchOutcome :=
  .ok { items := p.items.map rowToItem, total := p.total, nextCursor := some p.nextCursor }

/-! Concrete fixtures used by witnesses and counterexamples. -/

/-- A stored wildcard whose text is `"ab"`. -/
def wrow1 : Row := ⟨1, "w1", "ab", "generated", none, 0⟩

/-- One-row store. -/
def store1 : List Row := [wrow1]

/-- Stored row with rowid 2, text `"alpha"`. -/
def rA : Row := ⟨2, "a", "alpha", "generated", none, 0⟩

/-- Stored row with rowid 1, text `"gamma"`. -/
def rC : Row := ⟨1, "c", "gamma", "generated", none, 0⟩

/-- Two-row store in index (rowid-descending) order. -/
def S3 : List Row := [rA, rC]

/-- Three-row store in index order. -/
def S4 : List Row := [⟨3, "a", "alpha", "generated", none, 0⟩,
                      ⟨2, "b", "beta", "generated", none, 0⟩,
                      ⟨1, "c", "gamma", "generated", none, 0⟩]

/-- A client item not persisted to the store yet (a local prepend). -/
def itemB : WildcardItem := ⟨"b", "beta", 0, none⟩

/-- A client item as delivered by some response. -/
def itemX : WildcardItem := ⟨"x", "xtext", 0, none⟩

/-- A cache state with a page already applied: one item, a known cursor,
and an in-flight request. -/
def sC5 : CacheState :=
  { items := [], dbFetched := 0, serverTotal := 0, isLoadingMore := true,
    isInitialLoad := false, nextCursor := some 5, isFetching := true,
    activeQuery := "", pending := some ⟨"", some 5, true⟩ }

/-! Helper lemmas. -/

theorem filter_and_split {α : Type} (l : List α) (p q : α → Bool) :
    l.filter (fun a => p a && q a) = (l.filter p).filter q := by
  induction l with
  | nil => rfl
  | cons a t ih =>
    by_cases hp : p a <;> by_cases hq : q a <;>
      simp [List.filter_cons, hp, hq, ih]

theorem queryRows_eq_take (store : List Row) (lst q : String) (cursor : Option Nat)
    (lp : Option Int) (hs : List.Pairwise rowGt store) (hl : 0 ≤ effLimit lp) :
    queryRows store lst q cursor lp =
      (store.filter (fun r => matchPred lst q r && belowCursor cursor r.rowid)).take
        (effLimit lp).toNat := by
  have hsorted : List.Sorted rowLe
      (store.filter (fun r => matchPred lst q r && belowCursor cursor r.rowid)) := by
    have h1 : List.Pairwise rowGt
        (store.filter (fun r => matchPred lst q r && belowCursor cursor r.rowid)) :=
      List.Pairwise.sublist (List.filter_sublist store) hs
    exact h1.imp (fun hab => Nat.le_of_lt hab)
  rw [queryRows, if_neg (by omega), hsorted.insertionSort_eq]

theorem sorted_getLast_le (l : List Row) (h : List.Pairwise rowGt l) (hne : l ≠ []) :
    ∀ x ∈ l, (l.getLast hne).rowid ≤ x.rowid := by
  induction l with
  | nil => exact absurd rfl hne
  | cons a t ih =>
    intro x hx
    cases t with
    | nil =>
      rcases List.mem_cons.mp hx with rfl | hx'
      · exact Nat.le_refl _
      · cases hx'
    | cons b u =>
      have hne' : b :: u ≠ [] := by simp
      rw [List.getLast_cons hne']
      rcases List.pairwise_cons.mp h with ⟨ha, hp⟩
      rcases List.mem_cons.mp hx with rfl | hx'
      · exact Nat.le_of_lt (ha _ (List.getLast_mem hne'))
      · exact ih hp hne' x hx'

theorem pairwise_take_drop {l : List Row} (h : List.Pairwise rowGt l) (n : Nat) :
    ∀ x ∈ l.take n, ∀ y ∈ l.drop n, rowGt x y := by
  have h2 : List.Pairwise rowGt (l.take n ++ l.drop n) := by
    rwa [List.take_append_drop]
  exact fun x hx y hy => (List.pairwise_append.mp h2).2.2 x hx y hy

theorem filter_lt_between {l : List Row} (n : Nat) (c : Nat)
    (hge : ∀ x ∈ l.take n, c ≤ x.rowid) (hlt : ∀ y ∈ l.drop n, y.rowid < c) :
    l.filter (fun r => decide (r.rowid < c)) = l.drop n := by
  have h1 : (l.take n).filter (fun r => decide (r.rowid < c)) = [] := by
    refine List.filter_eq_nil_iff.mpr (fun a ha => ?_)
    have := hge a ha
    simp only [decide_eq_true_eq]
    omega
  have h2 : (l.drop n).filter (fun r => decide (r.rowid < c)) = l.drop n := by
    refine List.filter_eq_self.mpr (fun a ha => ?_)
    have := hlt a ha
    simpa using this
  conv_lhs => rw [← List.take_append_drop n l]
  rw [List.filter_append, h1, h2, List.nil_append]

theorem sorted_filter_lt_take {l : List Row} (h : List.Pairwise rowGt l) (n : Nat)
    (hne : l.take n ≠ []) :
    l.filter (fun r => decide (r.rowid < ((l.take n).getLast hne).rowid)) = l.drop n := by
  refine filter_lt_between n _ ?_ ?_
  · exact sorted_getLast_le _ (List.Pairwise.sublist (List.take_sublist n l) h) hne
  · exact fun y hy => pairwise_take_drop h n _ (List.getLast_mem hne) y hy

/-! ### C10 — limit clamping -/

/-- C10, counterexample.  The claim says the number of records returned is
at most `min(requested limit, 200)` for every request.  For the request
`limit=-1` the handler computes `Math.min(-1, 200) = -1` and binds it to
SQLite's `LIMIT`, where a negative limit means "no limit": against a
one-row store the handler returns that row, and `1 ≤ min (-1) 200` is
false. -/
theorem C10_counterexample :
    ((queryWildcards store1 "generated" "" none (some (-1))).items.length : Int) = 1 ∧
    ¬ (((queryWildcards store1 "generated" "" none (some (-1))).items.length : Int) ≤
        min (-1 : Int) 200) := by
  decide

/-- C10, amended: for a request whose effective limit is non-negative the
page never exceeds `(effLimit lp).toNat` records; a missing or
non-numeric limit parameter and a zero limit both default to 50, and a
positive requested limit `n` is clamped to `min n 200`.  (A negative
requested limit disables the cap entirely, per the counterexample.) -/
theorem C10_theorem (store : List Row) (lst q : String) (cursor : Option Nat)
    (lp : Option Int) (h : 0 ≤ effLimit lp) :
    (queryWildcards store lst q cursor lp).items.length ≤ (effLimit lp).toNat ∧
    effLimit none = 50 ∧ effLimit (some 0) = 50 ∧
    ∀ n : Int, 0 < n → effLimit (some n) = min n 200 := by
  refine ⟨?_, rfl, by decide, ?_⟩
  · show (queryRows store lst q cursor lp).length ≤ _
    rw [queryRows, if_neg (by omega)]
    exact List.length_take_le _ _
  · intro n hn
    simp only [effLimit]
    rw [if_neg (by omega)]

/-- C10, witness for the amended theorem at a concrete request. -/
theorem C10_witness :
    0 ≤ effLimit (some 2) ∧
    ((queryWildcards store1 "generated" "" none (some 2)).items.length ≤ (effLimit (some 2)).toNat ∧
     effLimit none = 50 ∧ effLimit (some 0) = 50 ∧
     ∀ n : Int, 0 < n → effLimit (some n) = min n 200) :=
  ⟨by decide, C10_theorem store1 "generated" "" none (some 2) (by decide)⟩

/-! ### C8 — prepend frame conditions -/

/-- C8: `prepend(newItems)` head-inserts the new items, bumps `total` and
`fetchedFromStore` by exactly the count added, and leaves every other
piece of cache state (in particular the cursor) unchanged; and on the
server side a cursor-bounded page only ever returns rows with
`rowid < cursor`, so records inserted later (at higher rowids than any
cursor already handed out) are never re-surfaced by a cursor-bounded
page. -/
theorem C8_theorem :
    (∀ (s : CacheState) (new : List WildcardItem),
       (prependOp s new).items = new ++ s.items ∧
       (prependOp s new).serverTotal = s.serverTotal + new.length ∧
       (prependOp s new).dbFetched = s.dbFetched + new.length ∧
       (prependOp s new).nextCursor = s.nextCursor ∧
       (prependOp s new).activeQuery = s.activeQuery ∧
       (prependOp s new).isFetching = s.isFetching ∧
       (prependOp s new).isLoadingMore = s.isLoadingMore ∧
       (prependOp s new).isInitialLoad = s.isInitialLoad ∧
       (prependOp s new).pending = s.pending) ∧
    (∀ (store : List Row) (lst q : String) (c : Nat) (lp : Option Int) (r : Row),
       r ∈ (queryWildcards store lst q (some c) lp).items → r.rowid < c) := by
  constructor
  · intro s new
    refine ⟨rfl, rfl, rfl, rfl, rfl, rfl, rfl, rfl, rfl⟩
  · intro store lst q c lp r hr
    have hq : (queryWildcards store lst q (some c) lp).items =
        queryRows store lst q (some c) lp := rfl
    rw [hq, queryRows] at hr
    have hr' : r ∈ (store.filter
        (fun r => matchPred lst q r && belowCursor (some c) r.rowid)).insertionSort rowLe := by
      split at hr
      · exact hr
      · exact List.mem_of_mem_take hr
    have hr'' : r ∈ store.filter
        (fun r => matchPred lst q r && belowCursor (some c) r.rowid) :=
      (List.mem_insertionSort rowLe).mp hr'
    have hp := List.of_mem_filter hr''
    rw [Bool.and_eq_true] at hp
    have := hp.2
    simpa [belowCursor] using this

/-- C8, witness: a concrete cursor-bounded page against `S3` and the
record it returns. -/
theorem C8_witness :
    (⟨1, "c", "gamma", "generated", none, 0⟩ : Row) ∈
      (queryWildcards S3 "generated" "" (some 2) (some 1)).items ∧
    (⟨1, "c", "gamma", "generated", none, 0⟩ : Row).rowid < 2 :=
  ⟨by decide, C8_theorem.2 S3 "generated" "" 2 (some 1) _ (by decide)⟩

/-! ### C4 — query change: reset and (guarded) fresh fetch -/

/-- C4, counterexample.  The claim says the fresh first-page fetch tagged
with the new query is issued in every case, including when a fetch for
the previous query is still in flight.  Starting from the reset state,
`setQuery "A"` puts a fetch in flight; `setQuery "B"` then runs the
reset, but `fetchPage` returns at the single-flight guard: the only
outstanding request is still the one tagged `"A"`, and no request tagged
`"B"` exists. -/
theorem C4_counterexample :
    (setQueryOp resetState "A").isFetching = true ∧
    (setQueryOp (setQueryOp resetState "A") "B").activeQuery = "B" ∧
    (setQueryOp (setQueryOp resetState "A") "B").pending =
      some { q := "A", cursor := none, replace := true } ∧
    (setQueryOp (setQueryOp resetState "A") "B").pending ≠
      some { q := "B", cursor := none, replace := true } := by
  decide

/-- C4, amended: a query change always resets the cache (items emptied,
counters zeroed, cursor cleared, initial-load flag set, epoch set to the
new query), and issues a fresh first-page fetch tagged with the new
query when no fetch is in flight; when a fetch is still in flight the
single-flight guard swallows the call and no new fetch is issued. -/
theorem C4_theorem (s : CacheState) (q : String) :
    (setQueryOp s q).activeQuery = q ∧
    (setQueryOp s q).items = [] ∧
    (setQueryOp s q).dbFetched = 0 ∧
    (setQueryOp s q).serverTotal = 0 ∧
    (setQueryOp s q).nextCursor = none ∧
    (setQueryOp s q).isInitialLoad = true ∧
    (s.isFetching = false →
      (setQueryOp s q).pending = some { q := q, cursor := none, replace := true } ∧
      (setQueryOp s q).isFetching = true) ∧
    (s.isFetching = true → (setQueryOp s q).pending = s.pending) := by
  rw [setQueryOp, startFetch]
  by_cases h : s.isFetching <;> simp [h]

/-- C4, witness: the reset-and-fetch conclusion at the initial state. -/
theorem C4_witness :
    (setQueryOp resetState "x").activeQuery = "x" ∧
    resetState.isFetching = false ∧
    (setQueryOp resetState "x").pending =
      some { q := "x", cursor := none, replace := true } :=
  ⟨(C4_theorem resetState "x").1, rfl,
   ((C4_theorem resetState "x").2.2.2.2.2.2.1 rfl).1⟩

/-! ### C2 — epoch tagging and stale-response safety -/

/-- C2: every fetch is issued tagged with the `activeQuery` value at
issue time (the query-change effect tags its fetch with the query it
just installed); a completed response whose tag no longer equals
`activeQuery` leaves `items`, `total`, `fetchedFromStore` and
`activeCursor` untouched (for a thrown fetch nothing but the flags is
touched either way); and in the `setQuery A` then `setQuery B` race,
applying A's late response leaves all four pieces of B's reset state
unaffected. -/
theorem C2_theorem :
    (∀ (s : CacheState) (q : String), s.isFetching = false →
       (setQueryOp s q).pending = some { q := q, cursor := none, replace := true } ∧
       (setQueryOp s q).activeQuery = q) ∧
    (∀ (s : CacheState) (q : String) (replace : Bool) (out : FetchOutcome),
       s.activeQuery ≠ q →
       (completeFetch s q replace out).items = s.items ∧
       (completeFetch s q replace out).serverTotal = s.serverTotal ∧
       (completeFetch s q replace out).dbFetched = s.dbFetched ∧
       (completeFetch s q replace out).nextCursor = s.nextCursor) ∧
    (∀ (s : CacheState) (A B : String) (replace : Bool) (out : FetchOutcome),
       A ≠ B →
       (setQueryOp (setQueryOp s A) B).activeQuery = B ∧
       (completeFetch (setQueryOp (setQueryOp s A) B) A replace out).items =
         (setQueryOp (setQueryOp s A) B).items ∧
       (completeFetch (setQueryOp (setQueryOp s A) B) A replace out).serverTotal =
         (setQueryOp (setQueryOp s A) B).serverTotal ∧
       (completeFetch (setQueryOp (setQueryOp s A) B) A replace out).dbFetched =
         (setQueryOp (setQueryOp s A) B).dbFetched ∧
       (completeFetch (setQueryOp (setQueryOp s A) B) A replace out).nextCursor =
         (setQueryOp (setQueryOp s A) B).nextCursor) := by
  have hframe : ∀ (s : CacheState) (q : String) (replace : Bool) (out : FetchOutcome),
      s.activeQuery ≠ q →
      (completeFetch s q replace out).items = s.items ∧
      (completeFetch s q replace out).serverTotal = s.serverTotal ∧
      (completeFetch s q replace out).dbFetched = s.dbFetched ∧
      (completeFetch s q replace out).nextCursor = s.nextCursor := by
    intro s q replace out h
    cases out with
    | err => exact ⟨rfl, rfl, rfl, rfl⟩
    | ok resp => simp [completeFetch, h]
  have hactive : ∀ (s : CacheState) (q : String), (setQueryOp s q).activeQuery = q := by
    intro s q
    rw [setQueryOp, startFetch]
    split <;> rfl
  refine ⟨?_, hframe, ?_⟩
  · intro s q h
    rw [setQueryOp, startFetch]
    simp [h]
  · intro s A B replace out hAB
    have hB := hactive (setQueryOp s A) B
    refine ⟨hB, hframe _ _ replace out ?_⟩
    rw [hB]
    exact fun h => hAB h.symm

/-- C2, witness: a concrete stale completion (tag `"A"`, active query
`"B"`) dropped without touching the four state cells. -/
theorem C2_witness :
    (setQueryOp (setQueryOp resetState "A") "B").activeQuery ≠ "A" ∧
    (completeFetch (setQueryOp (setQueryOp resetState "A") "B") "A" true
        (.ok { items := [itemX], total := 7, nextCursor := some (some 1) })).items =
      (setQueryOp (setQueryOp resetState "A") "B").items ∧
    (completeFetch (setQueryOp (setQueryOp resetState "A") "B") "A" true
        (.ok { items := [itemX], total := 7, nextCursor := some (some 1) })).serverTotal =
      (setQueryOp (setQueryOp resetState "A") "B").serverTotal ∧
    (completeFetch (setQueryOp (setQueryOp resetState "A") "B") "A" true
        (.ok { items := [itemX], total := 7, nextCursor := some (some 1) })).dbFetched =
      (setQueryOp (setQueryOp resetState "A") "B").dbFetched ∧
    (completeFetch (setQueryOp (setQueryOp resetState "A") "B") "A" true
        (.ok { items := [itemX], total := 7, nextCursor := some (some 1) })).nextCursor =
      (setQueryOp (setQueryOp resetState "A") "B").nextCursor :=
  ⟨by decide,
   C2_theorem.2.1 (setQueryOp (setQueryOp resetState "A") "B") "A" true
     (.ok { items := [itemX], total := 7, nextCursor := some (some 1) }) (by decide)⟩

/-! ### C5 — failure semantics of a page fetch -/

/-- C5, counterexample.  The claim says a malformed response missing
expected fields is treated like a transient fetch failure and leaves all
cache state unchanged.  The code never validates the body: the
syntactically valid JSON `\x7b"items":[…],"total":7\x7d` — whose expected
`nextCursor` field is absent — is applied as a success, replacing
`items`, `total` and the cursor ref (the absent field is read as
`undefined`). -/
theorem C5_counterexample :
    (completeFetch sC5 "" true
        (.ok { items := [itemX], total := 7, nextCursor := none })).items ≠ sC5.items ∧
    (completeFetch sC5 "" true
        (.ok { items := [itemX], total := 7, nextCursor := none })).serverTotal ≠
      sC5.serverTotal ∧
    (completeFetch sC5 "" true
        (.ok { items := [itemX], total := 7, nextCursor := none })).nextCursor ≠
      sC5.nextCursor := by
  decide

/-- C5, amended: a page fetch that throws (network failure or a body
that fails to parse) leaves `items`, `total`, `fetchedFromStore`,
`activeCursor` and the epoch unchanged, clears the in-flight guard and
the loading spinner, clears the initial-load flag (a no-op unless this
was the very first fetch) and schedules no retry (no request remains
outstanding).  A response that parses but merely lacks the `nextCursor`
field, however, is not treated as a failure: it is applied exactly as if
that field were `null`. -/
theorem C5_theorem :
    (∀ (s : CacheState) (q : String) (replace : Bool),
       (completeFetch s q replace .err).items = s.items ∧
       (completeFetch s q replace .err).serverTotal = s.serverTotal ∧
       (completeFetch s q replace .err).dbFetched = s.dbFetched ∧
       (completeFetch s q replace .err).nextCursor = s.nextCursor ∧
       (completeFetch s q replace .err).activeQuery = s.activeQuery ∧
       (completeFetch s q replace .err).isFetching = false ∧
       (completeFetch s q replace .err).isLoadingMore = false ∧
       (completeFetch s q replace .err).isInitialLoad = false ∧
       (completeFetch s q replace .err).pending = none) ∧
    (∀ (s : CacheState) (q : String) (replace : Bool) (its : List WildcardItem) (tot : Nat),
       completeFetch s q replace (.ok { items := its, total := tot, nextCursor := none }) =
       completeFetch s q replace (.ok { items := its, total := tot, nextCursor := some none })) := by
  constructor
  · intro s q replace
    refine ⟨rfl, rfl, rfl, rfl, rfl, rfl, rfl, rfl, rfl⟩
  · intro s q replace its tot
    rfl

/-! ### C9 — preview default pointer -/

/-- C9: the preview operations maintain the default-pointer invariant —
adding a preview keeps the default pointing at a present link (it only
fills a null default, with the link just added), and removing a link
repoints the default at the oldest remaining link or clears it when none
remain, so removal never leaves the default pointing at an absent
link. -/
theorem C9_theorem :
    (∀ (s : PreviewState) (url : String), previewInv s →
       previewInv (addPreview s url) ∧ previewInv (removePreview s url)) ∧
    (∀ (s : PreviewState) (url : String), url ≠ "" →
       (removePreview s url).previews = s.previews.filter (fun u => u != url) ∧
       (removePreview s url).preview_url = (s.previews.filter (fun u => u != url)).head?) := by
  have hhead : ∀ (l : List String) (v : String), l.head? = some v → v ∈ l := by
    intro l v hv
    cases l with
    | nil => cases hv
    | cons a t =>
      have ha : a = v := Option.some_inj.mp hv
      subst ha
      exact List.mem_cons_self a t
  have hremove : ∀ (s : PreviewState) (url : String), url ≠ "" →
      previewInv (removePreview s url) := by
    intro s url hu
    rw [removePreview, if_neg hu]
    intro v hv
    exact hhead _ v hv
  constructor
  · intro s url hinv
    constructor
    · rw [addPreview]
      by_cases hu : url = ""
      · rwa [if_pos hu]
      · rw [if_neg hu]
        intro v hv
        simp only [Option.some_inj] at hv
        cases hpu : s.preview_url with
        | none =>
          rw [hpu] at hv
          simp only [Option.getD] at hv
          subst hv
          exact List.mem_append_right _ (List.mem_singleton.mpr rfl)
        | some w =>
          rw [hpu] at hv
          simp only [Option.getD] at hv
          subst hv
          exact List.mem_append_left _ (hinv w hpu)
    · by_cases hu : url = ""
      · rw [removePreview, if_pos hu]
        exact hinv
      · exact hremove s url hu
  · intro s url hu
    rw [removePreview, if_neg hu]
    exact ⟨rfl, rfl⟩

/-- C9, witness: a record with previews `["a", "b"]` and default `"a"`;
adding `"c"` keeps the invariant, and removing the default `"a"`
promotes `"b"`. -/
theorem C9_witness :
    previewInv { preview_url := some "a", previews := ["a", "b"] } ∧
    previewInv (addPreview { preview_url := some "a", previews := ["a", "b"] } "c") ∧
    previewInv (removePreview { preview_url := some "a", previews := ["a", "b"] } "a") ∧
    (removePreview { preview_url := some "a", previews := ["a", "b"] } "a").preview_url =
      some "b" := by
  have hinv : previewInv { preview_url := some "a", previews := ["a", "b"] } := by
    intro u h
    cases h
    decide
  exact ⟨hinv,
    (C9_theorem.1 { preview_url := some "a", previews := ["a", "b"] } "c" hinv).1,
    (C9_theorem.1 { preview_url := some "a", previews := ["a", "b"] } "a" hinv).2,
    by decide⟩

/-! ### C1 — the pagination contract -/

/-- C1, counterexample.  The claim describes the text filter as
case-insensitive substring containment, but the handler interpolates the
raw query into a SQL LIKE pattern without escaping, so `%` and `_` in
the query act as wildcards: for the query `"_"` against a store whose
only row has text `"ab"`, the row is returned (pattern `%_%`) although
`"ab"` does not contain `"_"` as a substring. -/
theorem C1_counterexample :
    (queryWildcards store1 "generated" "_" none (some 50)).items = [wrow1] ∧
    specContainsCI "_" wrow1.text = false := by
  decide

/-- C1, amended: for every request against a store in index order
(rowids strictly decreasing) with a positive effective limit, the query
returns the `limit` highest-`insertionOrder` records whose
`insertionOrder` is strictly below the cursor (unbounded when absent)
and whose text matches the query as an unescaped case-insensitive SQL
LIKE `%query%` pattern (`%` and `_` in the query act as wildcards; for a
wildcard-free query this is substring containment, and the empty query
matches everything), ordered by `insertionOrder` descending, together
with the total count of records matching `(list, query)` irrespective of
the cursor, and a `nextCursor` equal to the `insertionOrder` of the last
returned record, or none when zero records were returned. -/
theorem C1_theorem (store : List Row) (lst q : String) (cursor : Option Nat)
    (lp : Option Int) (hs : List.Pairwise rowGt store) (hl : 0 < effLimit lp) :
    (∀ r ∈ (queryWildcards store lst q cursor lp).items,
        r ∈ store ∧ matchPred lst q r = true ∧ belowCursor cursor r.rowid = true) ∧
    List.Pairwise rowGt (queryWildcards store lst q cursor lp).items ∧
    (queryWildcards store lst q cursor lp).items.length =
      min (effLimit lp).toNat
        (store.filter (fun r => matchPred lst q r && belowCursor cursor r.rowid)).length ∧
    (∀ r ∈ store.filter (fun r => matchPred lst q r && belowCursor cursor r.rowid),
        r ∉ (queryWildcards store lst q cursor lp).items →
        ∀ x ∈ (queryWildcards store lst q cursor lp).items, r.rowid < x.rowid) ∧
    (queryWildcards store lst q cursor lp).total = (store.filter (matchPred lst q)).length ∧
    ((queryWildcards store lst q cursor lp).items = [] →
        (queryWildcards store lst q cursor lp).nextCursor = none) ∧
    (∀ h : (queryWildcards store lst q cursor lp).items ≠ [],
        (queryWildcards store lst q cursor lp).nextCursor =
          some (((queryWildcards store lst q cursor lp).items.getLast h).rowid)) := by
  have hitems : (queryWildcards store lst q cursor lp).items =
      (store.filter (fun r => matchPred lst q r && belowCursor cursor r.rowid)).take
        (effLimit lp).toNat :=
    queryRows_eq_take store lst q cursor lp hs (by omega)
  have hFsorted : List.Pairwise rowGt
      (store.filter (fun r => matchPred lst q r && belowCursor cursor r.rowid)) :=
    List.Pairwise.sublist (List.filter_sublist store) hs
  refine ⟨?_, ?_, ?_, ?_, rfl, ?_, ?_⟩
  · intro r hr
    rw [hitems] at hr
    have hrF := List.mem_of_mem_take hr
    have hp := List.of_mem_filter hrF
    rw [Bool.and_eq_true] at hp
    exact ⟨List.mem_of_mem_filter hrF, hp.1, hp.2⟩
  · rw [hitems]
    exact List.Pairwise.sublist
      (List.Sublist.trans (List.take_sublist _ _) (List.filter_sublist store)) hs
  · rw [hitems, List.length_take]
  · intro r hrF hnotin x hx
    rw [hitems] at hnotin hx
    have hsplit : r ∈ (store.filter
          (fun r => matchPred lst q r && belowCursor cursor r.rowid)).take (effLimit lp).toNat ++
        (store.filter
          (fun r => matchPred lst q r && belowCursor cursor r.rowid)).drop (effLimit lp).toNat := by
      rwa [List.take_append_drop]
    rcases List.mem_append.mp hsplit with h | h
    · exact absurd h hnotin
    · exact pairwise_take_drop hFsorted (effLimit lp).toNat x hx r h
  · intro h
    show ((queryWildcards store lst q cursor lp).items).getLast?.map Row.rowid = none
    rw [h]
    rfl
  · intro h
    show ((queryWildcards store lst q cursor lp).items).getLast?.map Row.rowid = _
    rw [List.getLast?_eq_getLast _ h]
    rfl

/-- C1, witness: the amended contract at a concrete request (store `S3`,
empty query, no cursor, limit 1), for the page-length conjunct. -/
theorem C1_witness :
    List.Pairwise rowGt S3 ∧ 0 < effLimit (some 1) ∧
    (queryWildcards S3 "generated" "" none (some 1)).items.length =
      min (effLimit (some 1)).toNat
        (S3.filter (fun r => matchPred "generated" "" r && belowCursor none r.rowid)).length :=
  ⟨by decide, by decide,
   (C1_theorem S3 "generated" "" none (some 1) (by decide) (by decide)).2.2.1⟩

/-! ### C3 — optimistic counter consistency -/

/-- C3, counterexample.  Starting from the reset state: apply page 1
(limit 1) served from the two-row store `S3`; `prepend` one locally
generated item (its `insertBatch` persistence is fire-and-forget and has
not landed); apply page 2, still served from `S3`; then `remove` an id
absent from the cache.  After the trace `fetchedFromStore = 2` while
`items` holds 3 records (all of which originated from the store or from
`prepend`), and `fetchedFromStore` exceeds `total = 1`: both the claimed
equality and the claimed `fetchedFromStore ≤ total` bound fail. -/
theorem C3_counterexample :
    (runOps resetState
      [CacheOp.fetchDone "" true (pageOutcome (queryWildcards S3 "generated" "" none (some 1))),
       CacheOp.prependItems [itemB],
       CacheOp.fetchDone "" false (pageOutcome (queryWildcards S3 "generated" "" (some 2) (some 1))),
       CacheOp.removeId "zzz"]).dbFetched = 2 ∧
    (runOps resetState
      [CacheOp.fetchDone "" true (pageOutcome (queryWildcards S3 "generated" "" none (some 1))),
       CacheOp.prependItems [itemB],
       CacheOp.fetchDone "" false (pageOutcome (queryWildcards S3 "generated" "" (some 2) (some 1))),
       CacheOp.removeId "zzz"]).items.length = 3 ∧
    (runOps resetState
      [CacheOp.fetchDone "" true (pageOutcome (queryWildcards S3 "generated" "" none (some 1))),
       CacheOp.prependItems [itemB],
       CacheOp.fetchDone "" false (pageOutcome (queryWildcards S3 "generated" "" (some 2) (some 1))),
       CacheOp.removeId "zzz"]).serverTotal = 1 := by
  decide

theorem countP_add_countP_not {α : Type} (l : List α) (p : α → Bool) :
    l.countP p + l.countP (fun a => !(p a)) = l.length := by
  induction l with
  | nil => rfl
  | cons a t ih =>
    rw [List.countP_cons, List.countP_cons, List.length_cons]
    by_cases hp : p a <;> simp [hp] <;> omega

theorem length_filter_not_of_countP {α : Type} (l : List α) (p : α → Bool)
    (h : l.countP p = 1) : (l.filter (fun a => !(p a))).length = l.length - 1 := by
  have h2 : (l.filter (fun a => !(p a))).length = l.countP (fun a => !(p a)) :=
    (List.countP_eq_length_filter _ _).symm
  have h3 := countP_add_countP_not l p
  omega

/-- C3, amended: for any interleaving of `prepend`, `remove` and
completed page-fetch applications starting from a state where the
counter matches (in particular the reset state), in which every `remove`
targets an id occurring exactly once in the items present at that
moment, `fetchedFromStore` always equals the number of items in `items`
(every cached item originated from the store or from `prepend`), and in
particular never drifts negative (the `Math.max(0, ·)` floor).  It can,
however, exceed `total` when a page response computed before a
`prepend`'s fire-and-forget persistence landed is applied, and a
`remove` of an absent or duplicated id breaks the equality — per the
counterexample. -/
theorem C3_theorem (s : CacheState) (ops : List CacheOp)
    (h1 : s.dbFetched = s.items.length) (h2 : removesValid s ops = true) :
    (runOps s ops).dbFetched = (runOps s ops).items.length := by
  induction ops generalizing s with
  | nil => exact h1
  | cons op rest ih =>
    rw [runOps]
    cases op with
    | prependItems new =>
      rw [removesValid, Bool.and_eq_true] at h2
      refine ih _ ?_ h2.2
      show s.dbFetched + new.length = (new ++ s.items).length
      rw [List.length_append, h1]
      omega
    | removeId id =>
      rw [removesValid, Bool.and_eq_true] at h2
      refine ih _ ?_ h2.2
      show s.dbFetched - 1 = (s.items.filter (fun w => w.id != id)).length
      have hc : s.items.countP (fun w => w.id == id) = 1 := by
        have h3 := h2.1
        rw [removeOk] at h3
        simpa using h3
      have h4 := length_filter_not_of_countP s.items (fun w => w.id == id) hc
      rw [h1]
      exact h4.symm
    | fetchDone q replace out =>
      rw [removesValid, Bool.and_eq_true] at h2
      refine ih _ ?_ h2.2
      cases out with
      | err => exact h1
      | ok resp =>
        show (completeFetch s q replace (.ok resp)).dbFetched =
          (completeFetch s q replace (.ok resp)).items.length
        rw [completeFetch]
        by_cases hq : s.activeQuery = q
        · cases replace <;> simp [hq, List.length_append, h1]
        · simp [hq]
          exact h1

/-- C3, witness: the amended invariant over a concrete trace in which
the `remove` targets an id present exactly once. -/
theorem C3_witness :
    resetState.dbFetched = resetState.items.length ∧
    removesValid resetState [CacheOp.prependItems [itemB], CacheOp.removeId "b"] = true ∧
    (runOps resetState [CacheOp.prependItems [itemB], CacheOp.removeId "b"]).dbFetched =
      (runOps resetState [CacheOp.prependItems [itemB], CacheOp.removeId "b"]).items.length :=
  ⟨rfl, by decide,
   C3_theorem resetState [CacheOp.prependItems [itemB], CacheOp.removeId "b"] rfl (by decide)⟩

/-! ### C6 — cursor monotonicity across pages -/

theorem filter_lt_skip_take {l : List Row} (a : Nat) (c : Nat)
    (h1 : ∀ x ∈ l.take a, ¬(x.rowid < c)) :
    l.filter (fun r => decide (r.rowid < c)) =
      (l.drop a).filter (fun r => decide (r.rowid < c)) := by
  have hnil : (l.take a).filter (fun r => decide (r.rowid < c)) = [] := by
    refine List.filter_eq_nil_iff.mpr (fun x hx => ?_)
    simpa using h1 x hx
  conv_lhs => rw [← List.take_append_drop a l]
  rw [List.filter_append, hnil, List.nil_append]

/-- The page sequence, expressed over the store: page `n` holds exactly
the chunk of the matching rows (in index order) from position `n·L` to
`n·L + L`, and reports the rowid of its last row as the next cursor. -/
theorem pageAt_spec (store : List Row) (lst q : String) (lp : Option Int)
    (hs : List.Pairwise rowGt store) (hl : 0 ≤ effLimit lp) (n : Nat) :
    (pageAt store lst q lp n).items =
      ((store.filter (matchPred lst q)).drop (n * (effLimit lp).toNat)).take
        (effLimit lp).toNat ∧
    (pageAt store lst q lp n).nextCursor =
      ((((store.filter (matchPred lst q)).drop (n * (effLimit lp).toNat)).take
        (effLimit lp).toNat).getLast?).map Row.rowid := by
  have hM_sorted : List.Pairwise rowGt (store.filter (matchPred lst q)) :=
    List.Pairwise.sublist (List.filter_sublist store) hs
  induction n with
  | zero =>
    have h0 : queryRows store lst q none lp =
        ((store.filter (matchPred lst q)).drop (0 * (effLimit lp).toNat)).take
          (effLimit lp).toNat := by
      rw [queryRows_eq_take store lst q none lp hs hl]
      rw [Nat.zero_mul, List.drop_zero]
      congr 1
      simp [belowCursor]
    refine ⟨h0, ?_⟩
    exact congrArg (fun l => l.getLast?.map Row.rowid) h0
  | succ n ihn =>
    rcases ihn with ⟨ih1, ih2⟩
    have hsucc : pageAt store lst q lp (n + 1) =
        match (pageAt store lst q lp n).nextCursor with
        | none => { items := [], total := (store.filter (matchPred lst q)).length,
                    nextCursor := none }
        | some c => queryWildcards store lst q (some c) lp := rfl
    by_cases hT : ((store.filter (matchPred lst q)).drop (n * (effLimit lp).toNat)).take
        (effLimit lp).toNat = []
    · have hcur : (pageAt store lst q lp n).nextCursor = none := by
        rw [ih2, hT]
        rfl
      have hnil : ((store.filter (matchPred lst q)).drop ((n + 1) * (effLimit lp).toNat)).take
          (effLimit lp).toNat = [] := by
        rcases List.take_eq_nil_iff.mp hT with h0 | h0
        · rw [h0]
          exact List.take_zero _
        · have hd : (store.filter (matchPred lst q)).drop ((n + 1) * (effLimit lp).toNat)
              = [] := by
            rw [Nat.succ_mul, ← List.drop_drop, h0, List.drop_nil]
          rw [hd]
          exact List.take_nil
      rw [hsucc, hcur]
      exact ⟨by rw [hnil], by rw [hnil]; rfl⟩
    · have hlast := List.getLast?_eq_getLast _ hT
      have hcur : (pageAt store lst q lp n).nextCursor =
          some (((((store.filter (matchPred lst q)).drop (n * (effLimit lp).toNat)).take
            (effLimit lp).toNat).getLast hT).rowid) := by
        rw [ih2, hlast]
        rfl
      have hD_sorted : List.Pairwise rowGt
          ((store.filter (matchPred lst q)).drop (n * (effLimit lp).toNat)) :=
        List.Pairwise.sublist (List.drop_sublist _ _) hM_sorted
      have hgl_mem_take : ((((store.filter (matchPred lst q)).drop
            (n * (effLimit lp).toNat)).take (effLimit lp).toNat).getLast hT) ∈
          ((store.filter (matchPred lst q)).drop (n * (effLimit lp).toNat)).take
            (effLimit lp).toNat := List.getLast_mem hT
      have hgl_mem_drop : ((((store.filter (matchPred lst q)).drop
            (n * (effLimit lp).toNat)).take (effLimit lp).toNat).getLast hT) ∈
          (store.filter (matchPred lst q)).drop (n * (effLimit lp).toNat) :=
        List.mem_of_mem_take hgl_mem_take
      have hfilter : (store.filter (matchPred lst q)).filter
          (fun r => decide (r.rowid < ((((store.filter (matchPred lst q)).drop
            (n * (effLimit lp).toNat)).take (effLimit lp).toNat).getLast hT).rowid)) =
          (store.filter (matchPred lst q)).drop ((n + 1) * (effLimit lp).toNat) := by
        rw [filter_lt_skip_take (n * (effLimit lp).toNat)]
        · rw [sorted_filter_lt_take hD_sorted (effLimit lp).toNat hT]
          rw [Nat.succ_mul, ← List.drop_drop]
        · intro x hx
          have hgt := pairwise_take_drop hM_sorted (n * (effLimit lp).toNat) x hx _ hgl_mem_drop
          have : (((((store.filter (matchPred lst q)).drop
              (n * (effLimit lp).toNat)).take (effLimit lp).toNat).getLast hT)).rowid <
              x.rowid := hgt
          omega
      have hq2 : queryRows store lst q
          (some (((((store.filter (matchPred lst q)).drop (n * (effLimit lp).toNat)).take
            (effLimit lp).toNat).getLast hT).rowid)) lp =
          ((store.filter (matchPred lst q)).drop ((n + 1) * (effLimit lp).toNat)).take
            (effLimit lp).toNat := by
        rw [queryRows_eq_take store lst q _ lp hs hl, filter_and_split]
        simp only [belowCursor]
        rw [hfilter]
      rw [hsucc, hcur]
      refine ⟨hq2, ?_⟩
      exact congrArg (fun l => l.getLast?.map Row.rowid) hq2

/-- C6: for any sequence of `loadMore()` pages with no intervening query
change, against an unchanged, well-formed store, every record of a later
page has strictly smaller `insertionOrder` than every record of an
earlier page, and no record id appears in two distinct pages. -/
theorem C6_theorem (store : List Row) (lst q : String) (lp : Option Int)
    (hs : List.Pairwise rowGt store) (hids : (store.map Row.id).Nodup)
    (hl : 0 ≤ effLimit lp) :
    ∀ i j, i < j →
      ∀ x ∈ (pageAt store lst q lp j).items, ∀ y ∈ (pageAt store lst q lp i).items,
        x.rowid < y.rowid ∧ x.id ≠ y.id := by
  intro i j hij x hx y hy
  rw [(pageAt_spec store lst q lp hs hl j).1] at hx
  rw [(pageAt_spec store lst q lp hs hl i).1] at hy
  have hM_sorted : List.Pairwise rowGt (store.filter (matchPred lst q)) :=
    List.Pairwise.sublist (List.filter_sublist store) hs
  have hxd : x ∈ ((store.filter (matchPred lst q)).drop (i * (effLimit lp).toNat)).drop
      (effLimit lp).toNat := by
    have hx' : x ∈ (store.filter (matchPred lst q)).drop (j * (effLimit lp).toNat) :=
      List.mem_of_mem_take hx
    have hle : i * (effLimit lp).toNat + (effLimit lp).toNat ≤ j * (effLimit lp).toNat := by
      have h1 : (i + 1) * (effLimit lp).toNat ≤ j * (effLimit lp).toNat :=
        Nat.mul_le_mul_right _ hij
      rw [Nat.succ_mul] at h1
      exact h1
    have hsplit : (store.filter (matchPred lst q)).drop (j * (effLimit lp).toNat) =
        ((store.filter (matchPred lst q)).drop
          (i * (effLimit lp).toNat + (effLimit lp).toNat)).drop
          (j * (effLimit lp).toNat - (i * (effLimit lp).toNat + (effLimit lp).toNat)) := by
      rw [List.drop_drop]
      congr 1
      omega
    rw [hsplit] at hx'
    have hx'' := List.mem_of_mem_drop hx'
    rwa [← List.drop_drop] at hx''
  have hD_sorted : List.Pairwise rowGt
      ((store.filter (matchPred lst q)).drop (i * (effLimit lp).toNat)) :=
    List.Pairwise.sublist (List.drop_sublist _ _) hM_sorted
  have hlt : rowGt y x := pairwise_take_drop hD_sorted (effLimit lp).toNat y hy x hxd
  refine ⟨hlt, ?_⟩
  have hxM : x ∈ store.filter (matchPred lst q) :=
    List.mem_of_mem_drop (List.mem_of_mem_drop hxd)
  have hyM : y ∈ store.filter (matchPred lst q) :=
    List.mem_of_mem_drop (List.mem_of_mem_take hy)
  have hMids : ((store.filter (matchPred lst q)).map Row.id).Nodup :=
    List.Nodup.sublist (List.Sublist.map Row.id (List.filter_sublist store)) hids
  intro heq
  have hxy : x = y := List.inj_on_of_nodup_map hMids hxM hyM heq
  rw [hxy] at hlt
  exact lt_irrefl _ hlt

/-- C6, witness: against the three-row store `S4` with page size 2,
page 1 returns the rowid-1 record and page 0 contains the rowid-3
record: strictly smaller rowid, different id. -/
theorem C6_witness :
    List.Pairwise rowGt S4 ∧ (S4.map Row.id).Nodup ∧ 0 ≤ effLimit (some 2) ∧
    ((⟨1, "c", "gamma", "generated", none, 0⟩ : Row).rowid <
        (⟨3, "a", "alpha", "generated", none, 0⟩ : Row).rowid ∧
     (⟨1, "c", "gamma", "generated", none, 0⟩ : Row).id ≠
        (⟨3, "a", "alpha", "generated", none, 0⟩ : Row).id) :=
  ⟨by decide, by decide, by decide,
   C6_theorem S4 "generated" "" (some 2) (by decide) (by decide) (by decide) 0 1 (by decide)
     ⟨1, "c", "gamma", "generated", none, 0⟩ (by decide)
     ⟨3, "a", "alpha", "generated", none, 0⟩ (by decide)⟩

/-! ### C7 — idempotent pagination under deletion -/

theorem filter_swap {α : Type} (l : List α) (p q : α → Bool) :
    (l.filter p).filter q = (l.filter q).filter p := by
  rw [← filter_and_split, ← filter_and_split]
  congr 1
  funext a
  exact Bool.and_comm _ _

/-- C7: delete a record `d` already delivered in page 1, then fetch the
next page with the cursor page 1 reported.  The records the client has
seen (page 1 minus the deleted record, then page 2) form a prefix of a
fresh full fetch with the same query and no cursor against the
post-deletion store: nothing is skipped and nothing is duplicated —
deletions only shrink later pages and never disturb the cursor walk. -/
theorem C7_theorem (store : List Row) (lst q : String) (lp lpFull : Option Int) (d : Row)
    (hs : List.Pairwise rowGt store) (hids : (store.map Row.id).Nodup)
    (hl : 0 < effLimit lp) (hlf : 0 ≤ effLimit lpFull)
    (hd : d ∈ (queryWildcards store lst q none lp).items)
    (c : Nat) (hc : (queryWildcards store lst q none lp).nextCursor = some c)
    (hfull : ((deleteWildcard store d.id).filter (matchPred lst q)).length ≤
      (effLimit lpFull).toNat) :
    ∃ t, ((queryWildcards store lst q none lp).items.filter (fun r => r.id != d.id)) ++
        ((queryWildcards (deleteWildcard store d.id) lst q (some c) lp).items ++ t) =
      (queryWildcards (deleteWildcard store d.id) lst q none lpFull).items := by
  have hM_sorted : List.Pairwise rowGt (store.filter (matchPred lst q)) :=
    List.Pairwise.sublist (List.filter_sublist store) hs
  have hMids : ((store.filter (matchPred lst q)).map Row.id).Nodup :=
    List.Nodup.sublist (List.Sublist.map Row.id (List.filter_sublist store)) hids
  have hs' : List.Pairwise rowGt (deleteWildcard store d.id) :=
    List.Pairwise.sublist (List.filter_sublist store) hs
  have hP1 : (queryWildcards store lst q none lp).items =
      (store.filter (matchPred lst q)).take (effLimit lp).toNat := by
    show queryRows store lst q none lp = _
    rw [queryRows_eq_take store lst q none lp hs (by omega)]
    congr 1
    simp [belowCursor]
  rw [hP1] at hd
  have hne' : (store.filter (matchPred lst q)).take (effLimit lp).toNat ≠ [] :=
    List.ne_nil_of_mem hd
  have hcval : c = (((store.filter (matchPred lst q)).take (effLimit lp).toNat).getLast
      hne').rowid := by
    have h1 : (queryWildcards store lst q none lp).nextCursor =
        ((queryWildcards store lst q none lp).items.getLast?).map Row.rowid := rfl
    rw [h1, hP1, List.getLast?_eq_getLast _ hne'] at hc
    simpa using hc.symm
  subst hcval
  have hfilterM : (store.filter (matchPred lst q)).filter
      (fun r => decide (r.rowid < (((store.filter (matchPred lst q)).take
        (effLimit lp).toNat).getLast hne').rowid)) =
      (store.filter (matchPred lst q)).drop (effLimit lp).toNat :=
    sorted_filter_lt_take hM_sorted (effLimit lp).toNat hne'
  have hM' : (deleteWildcard store d.id).filter (matchPred lst q) =
      (store.filter (matchPred lst q)).filter (fun r => r.id != d.id) := by
    rw [deleteWildcard]
    exact filter_swap store _ _
  have hdropSelf : ((store.filter (matchPred lst q)).drop (effLimit lp).toNat).filter
      (fun r => r.id != d.id) =
      (store.filter (matchPred lst q)).drop (effLimit lp).toNat := by
    refine List.filter_eq_self.mpr (fun r hr => ?_)
    by_contra hne2
    have heq : r.id = d.id := by simpa using hne2
    have hrM : r ∈ store.filter (matchPred lst q) := List.mem_of_mem_drop hr
    have hdM : d ∈ store.filter (matchPred lst q) := List.mem_of_mem_take hd
    have hrd : r = d := List.inj_on_of_nodup_map hMids hrM hdM heq
    have hgt := pairwise_take_drop hM_sorted (effLimit lp).toNat d hd r hr
    rw [hrd] at hgt
    exact lt_irrefl _ hgt
  have hpage2 : (queryWildcards (deleteWildcard store d.id) lst q
      (some ((((store.filter (matchPred lst q)).take (effLimit lp).toNat).getLast
        hne').rowid)) lp).items =
      ((store.filter (matchPred lst q)).drop (effLimit lp).toNat).take (effLimit lp).toNat := by
    show queryRows (deleteWildcard store d.id) lst q _ lp = _
    rw [queryRows_eq_take (deleteWildcard store d.id) lst q _ lp hs' (by omega)]
    rw [filter_and_split]
    simp only [belowCursor]
    rw [hM', filter_swap, hfilterM, hdropSelf]
  have hfullitems : (queryWildcards (deleteWildcard store d.id) lst q none lpFull).items =
      (store.filter (matchPred lst q)).filter (fun r => r.id != d.id) := by
    show queryRows (deleteWildcard store d.id) lst q none lpFull = _
    rw [queryRows_eq_take (deleteWildcard store d.id) lst q none lpFull hs' hlf]
    have hbc : (deleteWildcard store d.id).filter
        (fun r => matchPred lst q r && belowCursor none r.rowid) =
        (deleteWildcard store d.id).filter (matchPred lst q) := by
      congr 1
      funext r
      simp [belowCursor]
    rw [hbc, List.take_of_length_le hfull, hM']
  refine ⟨((store.filter (matchPred lst q)).drop (effLimit lp).toNat).drop
    (effLimit lp).toNat, ?_⟩
  rw [hP1, hpage2, hfullitems, List.take_append_drop]
  conv_rhs => rw [← List.take_append_drop (effLimit lp).toNat (store.filter (matchPred lst q))]
  rw [List.filter_append, hdropSelf]

/-- C7, witness: store `S4` (rowids 3,2,1), page size 2.  Page 1 is
`[a(3), b(2)]` with cursor 2; delete `a`; page 2 against the shrunken
store is `[c(1)]`; the seen records `[b] ++ [c]` are exactly the fresh
full fetch `[b, c]`. -/
theorem C7_witness :
    List.Pairwise rowGt S4 ∧ (S4.map Row.id).Nodup ∧
    0 < effLimit (some 2) ∧ 0 ≤ effLimit (some 50) ∧
    (⟨3, "a", "alpha", "generated", none, 0⟩ : Row) ∈
      (queryWildcards S4 "generated" "" none (some 2)).items ∧
    (queryWildcards S4 "generated" "" none (some 2)).nextCursor = some 2 ∧
    ((deleteWildcard S4 "a").filter (matchPred "generated" "")).length ≤
      (effLimit (some 50)).toNat ∧
    ∃ t, ((queryWildcards S4 "generated" "" none (some 2)).items.filter
        (fun r => r.id != (⟨3, "a", "alpha", "generated", none, 0⟩ : Row).id)) ++
        ((queryWildcards (deleteWildcard S4 (⟨3, "a", "alpha", "generated", none, 0⟩ : Row).id)
            "generated" "" (some 2) (some 2)).items ++ t) =
      (queryWildcards (deleteWildcard S4 (⟨3, "a", "alpha", "generated", none, 0⟩ : Row).id)
          "generated" "" none (some 50)).items :=
  ⟨by decide, by decide, by decide, by decide, by decide, by decide, by decide,
   C7_theorem S4 "generated" "" (some 2) (some 50) ⟨3, "a", "alpha", "generated", none, 0⟩
     (by decide) (by decide) (by decide) (by decide) (by decide) 2 (by decide) (by decide)⟩
